import Mathlib

/-!
Verification of the ArchFinn simulation engine (`archfinn/core/engine.py`).

The engine is embedded shallowly: Python floats become `ℚ`, dicts become
association lists looked up with `List.lookup` (for the step dictionary the
comprehension's later-wins behaviour is modelled by a left fold), the mutable
`ArchState` dataclass becomes an explicit state record threaded through the
interpreter, and the seeded `random.Random` generator becomes an abstract
stream `ℕ → ℚ` of draws together with a cursor (`rngIdx`).  The `print` side
channel and `time.sleep` pacing are modelled by two ghost fields (`printed`,
`slept`) that the interpreter writes but never reads.  The bounded `for`
loop becomes fuel recursion; `break`, `continue` and `return` are modelled by
the `StepOut` outcome type.
-/

namespace ArchFinn

/-- A network asset: the identifiers of the controls attached to it.  The
other node attributes are opaque to the engine and omitted. -/
structure Node where
  controls : List String
deriving DecidableEq

/-- A control: its `effectiveness` table mapping an attack kind to a value.
In Python each control is a dict `{"effectiveness": {kind: float}}`. -/
structure Control where
  effectiveness : List (String × ℚ)
deriving DecidableEq

/-- A parameter value of a scenario step: the engine consults string
parameters, numeric parameters and `(jump_kind, label)` tuples. -/
inductive PVal where
  | str (s : String)
  | num (q : ℚ)
  | jump (kind label : String)
deriving DecidableEq

/-- A scenario step: id, action kind and parameter mapping. -/
structure ScenarioStep where
  id : String
  action : String
  params : List (String × PVal)
deriving DecidableEq

/-- The timeline configuration dict; `none` models an absent key, the engine
applies defaults 20 and 0.5 via `.get`. -/
structure Timeline where
  max_steps : Option ℕ
  tick_delay : Option ℚ
deriving DecidableEq

/-- A scenario: name, ordered steps, timeline configuration. -/
structure Scenario where
  name : String
  steps : List ScenarioStep
  timeline : Timeline
deriving DecidableEq

/-- The mutable simulation state (`ArchState` dataclass).  `rng`/`rngIdx`
model the deterministic seeded generator as a stream of draws and a cursor;
`slept` and `printed` are ghost fields recording the `time.sleep` pacing and
the real-time `print` output stream, which the engine writes but never
reads. -/
structure ArchState where
  nodes : List (String × Node)
  edges : List (String × String)
  controls : List (String × Control)
  events : List String
  logs : List String
  tick : ℕ
  rng : ℕ → ℚ
  rngIdx : ℕ
  slept : List ℚ
  printed : List String

/-- Two-digit zero padding, as Python's `{:02d}` for non-negative values. -/
def pad2 (n : ℕ) : String :=
  if n < 10 then "0" ++ toString n else toString n

/-- A log line as produced by `ArchState.log`: tick tag, space, message. -/
def mkLine (t : ℕ) (msg : String) : String :=
  "[t=" ++ pad2 t ++ "] " ++ msg

/-- `ArchState.log`: append the tagged line to `logs` and mirror it on the
live output stream (the ghost `printed` field models the `print` call). -/
def ArchState.log (s : ArchState) (msg : String) : ArchState :=
  { s with logs := s.logs ++ [mkLine s.tick msg],
           printed := s.printed ++ [mkLine s.tick msg] }

/-- `time.sleep(d)`: recorded on the ghost `slept` channel only. -/
def ArchState.sleep (s : ArchState) (d : ℚ) : ArchState :=
  { s with slept := s.slept ++ [d] }

/-- The nested lookup `self.controls.get(ctrl, {}).get("effectiveness",
{}).get(kind, 0.0)` from `eff_node`'s loop body. -/
def ArchState.ctrl_eff (s : ArchState) (ctrl kind : String) : ℚ :=
  match s.controls.lookup ctrl with
  | none => 0
  | some c =>
    match c.effectiveness.lookup kind with
    | none => 0
    | some e => e

/-- `ArchState.eff_node`: combined control effectiveness of a node.  A
missing node returns 0.0; otherwise `1 - ∏ (1 - eff)` over the node's
controls (the Python `hasattr(node, 'controls')` guard is always satisfied
by the modelled node type). -/
def ArchState.eff_node (s : ArchState) (node_id kind : String) : ℚ :=
  match s.nodes.lookup node_id with
  | none => 0
  | some node =>
    1 - node.controls.foldl (fun prod ctrl => prod * (1 - s.ctrl_eff ctrl kind)) 1

/-- Python's builtin `min` on two values (returns the first on ties);
written with an explicit comparison so that it evaluates in the kernel. -/
def pymin (a b : ℚ) : ℚ := if b < a then b else a

/-- Python's builtin `max` on two values (returns the first on ties). -/
def pymax (a b : ℚ) : ℚ := if a < b then b else a

/-- `eval_prob(state, kind, *, target=None, path=None, base_p=0.5,
context=1.0)`.  Python truthiness is modelled faithfully: an empty `path`
and an empty-string `target` are falsy and fall through to the next branch. -/
def eval_prob (state : ArchState) (kind : String) (target : Option String)
    (path : Option (List String)) (base_p context : ℚ) : ℚ :=
  let p_block :=
    match path with
    | some (nid :: rest) =>
      (nid :: rest).foldl (fun acc n => acc * (1 - state.eff_node n kind)) 1
    | _ =>
      match target with
      | some t => if t = "" then 0 else state.eff_node t kind
      | none => 0
  pymax 0 (pymin 1 (base_p * (1 - p_block) * context))

/-- The result record `{"result": ..., "logs": ..., "events": ...}`. -/
structure RunResult where
  result : String
  logs : List String
  events : List String
deriving DecidableEq

/-- `params.get(key, dflt)` for a string-valued parameter.  The parser
produces well-typed parameters; a value of another shape falls back to the
default. -/
def getStr (ps : List (String × PVal)) (key dflt : String) : String :=
  match ps.lookup key with
  | some (PVal.str s) => s
  | _ => dflt

/-- `params.get(key, dflt)` for a numeric parameter. -/
def getNum (ps : List (String × PVal)) (key : String) (dflt : ℚ) : ℚ :=
  match ps.lookup key with
  | some (PVal.num q) => q
  | _ => dflt

/-- Python's `f"{p:.2f}"` modelled on rationals: round to hundredths and
print two digits after the point.  The exact rounding mode of float
formatting is immaterial to every claim; only determinism matters. -/
def fmt2 (q : ℚ) : String :=
  let n : ℤ := (q * 100 + 1/2).floor
  toString (n / 100) ++ "." ++ pad2 (n % 100).toNat

/-- Outcome of one dispatch of the loop body: `halt` models `return`,
`jump` models `current = label; continue`, `thru` models falling through to
the trailing "No valid transition found" break. -/
inductive StepOut where
  | halt (r : RunResult) (s : ArchState)
  | jump (label : String) (s : ArchState)
  | thru (s : ArchState)

/-- The shared `on_success`/`on_fail` branch handling of `exploit`,
`move_lateral` and undetected `exfiltrate`: a `("goto", label)` tuple
continues at `label`, an `("end", label)` tuple logs and returns, anything
else (absent value, non-tuple, unknown jump kind) falls through. -/
def branchJump (s : ArchState) (v : Option PVal) : StepOut :=
  match v with
  | some (PVal.jump k label) =>
    if k = "goto" then StepOut.jump label s
    else if k = "end" then
      let s1 := s.log ("🏁 END: " ++ label.toUpper)
      StepOut.halt ⟨label, s1.logs, s1.events⟩ s1
    else StepOut.thru s
  | _ => StepOut.thru s

/-- The action `if/elif` chain of the loop body, from the point after the
"Executing step" log. -/
def execStep (step : ScenarioStep) (st : ArchState) : StepOut :=
  if step.action = "exploit" then
    let target := getStr step.params "target" "unknown"
    let etype := getStr step.params "type" "generic"
    let base := getNum step.params "base_success" (1/2)
    let p := eval_prob st etype (some target) none base 1
    let draw := st.rng st.rngIdx
    let st1 := { st with rngIdx := st.rngIdx + 1 }
    let success := decide (draw < p)
    let st2 := st1.log ("🎯 Exploit " ++ target ++ " via " ++ etype ++ ": p=" ++
      fmt2 p ++ " → " ++ (if success then "✅" else "❌"))
    branchJump st2 (step.params.lookup (if success then "on_success" else "on_fail"))
  else if step.action = "move_lateral" then
    let from_node := getStr step.params "from" "unknown"
    let to_node := getStr step.params "to" "unknown"
    let mtype := getStr step.params "type" "generic"
    let base := getNum step.params "base_success" (1/2)
    let p := eval_prob st mtype none (some [from_node, to_node]) base 1
    let draw := st.rng st.rngIdx
    let st1 := { st with rngIdx := st.rngIdx + 1 }
    let success := decide (draw < p)
    let st2 := st1.log ("➡️  Lateral " ++ from_node ++ "→" ++ to_node ++ " via " ++
      mtype ++ ": p=" ++ fmt2 p ++ " → " ++ (if success then "✅" else "❌"))
    branchJump st2 (step.params.lookup (if success then "on_success" else "on_fail"))
  else if step.action = "exfiltrate" then
    let dp := getNum step.params "detect_prob" 0
    let dv := getNum step.params "data_volume" 0
    let draw := st.rng st.rngIdx
    let st1 := { st with rngIdx := st.rngIdx + 1 }
    if decide (draw < dp) then
      let st2 := { st1 with events := st1.events ++ ["ALERT.EXFIL"] }
      let st3 := st2.log ("🚨 Exfiltration detected! (" ++ toString dv ++ " MB)")
      match step.params.lookup "on_detect" with
      | some (PVal.jump k label) =>
        if k = "end" then
          let st4 := st3.log ("🏁 END: " ++ label.toUpper)
          StepOut.halt ⟨label, st4.logs, st4.events⟩ st4
        else StepOut.thru st3
      | _ => StepOut.thru st3
    else
      let st2 := st1.log ("💾 Exfiltrating " ++ toString dv ++ " MB... undetected")
      branchJump st2 (step.params.lookup "on_success")
  else
    let st1 := st.log ("⚠️  Unknown action: " ++ step.action)
    StepOut.halt ⟨"unknown_action", st1.logs, st1.events⟩ st1

/-- The loop-body prologue once the step is found: tick increment,
"Executing" log, and the optional pacing sleep (`if tick_delay > 0`). -/
def preStep (tick_delay : ℚ) (st : ArchState) (step : ScenarioStep) : ArchState :=
  let st1 := { st with tick := st.tick + 1 }
  let st2 := st1.log ("⚡ Executing step " ++ step.id ++ ": " ++ step.action)
  if 0 < tick_delay then st2.sleep tick_delay else st2

/-- `steps = {s.id: s for s in scenario.steps}` followed by `.get(current)`:
in the dict comprehension a later duplicate id overrides an earlier one. -/
def stepLookup (steps : List ScenarioStep) (i : String) : Option ScenarioStep :=
  steps.foldl (fun acc s => if s.id = i then some s else acc) none

/-- The epilogue after falling out of the loop (by `break` or by exhausting
the iteration budget): log and return the `max_steps` record. -/
def finishMax (max_steps : ℕ) (st : ArchState) : RunResult × ArchState :=
  let st1 := st.log ("⏰ Maximum steps (" ++ toString max_steps ++ ") reached")
  (⟨"max_steps", st1.logs, st1.events⟩, st1)

/-- The `for iteration in range(max_steps)` loop as fuel recursion; both
`break` sites fall through to `finishMax`, as in the source. -/
def runLoop (tick_delay : ℚ) (max_steps : ℕ) (steps : List ScenarioStep) :
    ℕ → String → ArchState → RunResult × ArchState
  | 0, _, st => finishMax max_steps st
  | fuel + 1, current, st =>
    match stepLookup steps current with
    | none => finishMax max_steps (st.log ("❌ Step not found: " ++ current))
    | some step =>
      match execStep step (preStep tick_delay st step) with
      | StepOut.halt r s => (r, s)
      | StepOut.jump label s => runLoop tick_delay max_steps steps fuel label s
      | StepOut.thru s =>
        finishMax max_steps (s.log "❌ No valid transition found, ending scenario")

/-- `run_scenario(state, scenario)`: the empty scenario returns a fresh
record immediately; otherwise the header lines are logged and the bounded
loop starts at the first step's id. -/
def run_scenario (st : ArchState) (scenario : Scenario) : RunResult × ArchState :=
  match scenario.steps with
  | [] => (⟨"no_steps", ["❌ No steps found in scenario"], []⟩, st)
  | s0 :: _ =>
    let max_steps := scenario.timeline.max_steps.getD 20
    let tick_delay := scenario.timeline.tick_delay.getD (1/2)
    let st1 := st.log ("🚀 Running scenario: " ++ scenario.name)
    let st2 := st1.log ("📊 Timeline: max_steps=" ++ toString max_steps ++
      ", tick_delay=" ++ toString tick_delay ++ "s")
    let st3 := st2.log ("🎯 Starting from step: " ++ s0.id)
    runLoop tick_delay max_steps scenario.steps max_steps s0.id st3

/-! Invariant predicates and concrete witness data. -/

/-- The string is a `[t=NN]`-tagged log line with `lo ≤ NN ≤ hi`. -/
def Tagged (lo hi : ℕ) (e : String) : Prop :=
  ∃ t m, e = mkLine t m ∧ lo ≤ t ∧ t ≤ hi

/-- How the state may change over (part of) a run. -/
structure Evolves (s s' : ArchState) : Prop where
  nodes : s'.nodes = s.nodes
  edges : s'.edges = s.edges
  controls : s'.controls = s.controls
  rng : s'.rng = s.rng
  tick_le : s.tick ≤ s'.tick
  logsE : ∃ nl, s'.logs = s.logs ++ nl ∧ ∀ e ∈ nl, Tagged s.tick s'.tick e
  eventsE : ∃ ne, s'.events = s.events ++ ne ∧ ∀ x ∈ ne, x = "ALERT.EXFIL"

/-- The invariant carried by a step outcome: the state evolves, the tick is
untouched by the dispatch itself, and a returned record shares the final
state's logs and events. -/
def OutEvolves (s : ArchState) : StepOut → Prop
  | StepOut.halt r s' => Evolves s s' ∧ s'.tick = s.tick ∧ r.logs = s'.logs ∧ r.events = s'.events
  | StepOut.jump _ s' => Evolves s s' ∧ s'.tick = s.tick
  | StepOut.thru s' => Evolves s s' ∧ s'.tick = s.tick

/-- Agreement on all engine-visible state components. -/
structure SideEq (s t : ArchState) : Prop where
  nodes : s.nodes = t.nodes
  edges : s.edges = t.edges
  controls : s.controls = t.controls
  events : s.events = t.events
  logs : s.logs = t.logs
  tick : s.tick = t.tick
  rng : s.rng = t.rng
  rngIdx : s.rngIdx = t.rngIdx

/-- Lock-step relation on step outcomes. -/
def OutSideEq : StepOut → StepOut → Prop
  | StepOut.halt r s, StepOut.halt r' t => r = r' ∧ SideEq s t
  | StepOut.jump l s, StepOut.jump l' t => l = l' ∧ SideEq s t
  | StepOut.thru s, StepOut.thru t => SideEq s t
  | _, _ => False

/-- The string is some `[t=NN]`-tagged log line. -/
def tickTagged (e : String) : Prop := ∃ t m, e = mkLine t m

/-- Whether a branch parameter value is a `(jump-kind, label)` pair whose
kind the interpreter acts on (`goto` or `end`). -/
def jumpTaken : Option PVal → Bool
  | some (PVal.jump k _) => k == "goto" || k == "end"
  | _ => false

/-- Empty topology, fresh state, zero random stream. -/
def st0 : ArchState := ⟨[], [], [], [], [], 0, fun _ => 0, 0, [], []⟩

/-- A state that already carries events and logs before the run starts. -/
def stDirty : ArchState := ⟨[], [], [], ["OLD.EVENT"], ["old line"], 3, fun _ => 0, 0, [], []⟩

/-- `st0` with non-empty ghost side channels (pacing and live output). -/
def stP : ArchState := ⟨[], [], [], [], [], 0, fun _ => 0, 0, [7], ["earlier output"]⟩

/-- Node `A` exists but carries no controls. -/
def stA : ArchState := ⟨[("A", ⟨[]⟩)], [], [], [], [], 0, fun _ => 0, 0, [], []⟩

/-- A node with two controls of effectiveness 3/10 and 1/2 for kind `k`. -/
def stW : ArchState :=
  ⟨[("n", ⟨["c1", "c2"]⟩), ("m", ⟨["c1"]⟩)], [],
    [("c1", ⟨[("k", 3/10)]⟩), ("c2", ⟨[("k", 1/2)]⟩)], [], [], 0, fun _ => 0, 0, [], []⟩

/-- A node whose id is the empty string, protected by a control of
effectiveness 1/2 for kind `k`. -/
def stE : ArchState :=
  ⟨[("", ⟨["c"]⟩)], [], [("c", ⟨[("k", 1/2)]⟩)], [], [], 0, fun _ => 0, 0, [], []⟩

/-- A step whose success and failure branches both `goto` itself. -/
def loopStep : ScenarioStep :=
  ⟨"s1", "exploit", [("on_success", PVal.jump "goto" "s1"), ("on_fail", PVal.jump "goto" "s1")]⟩

/-- Self-looping scenario with `max_steps = 5`. -/
def loopScen : Scenario := ⟨"loop", [loopStep], ⟨some 5, some 0⟩⟩

/-- A scenario with no steps. -/
def emptyScen : Scenario := ⟨"empty", [], ⟨none, none⟩⟩

/-- An exfiltration step with certain detection ending at label `stopped`. -/
def exfilStep : ScenarioStep :=
  ⟨"e1", "exfiltrate", [("detect_prob", PVal.num 1), ("on_detect", PVal.jump "end" "stopped")]⟩

/-- Scenario running `exfilStep`. -/
def exfilScen : Scenario := ⟨"exfil", [exfilStep], ⟨some 3, some 0⟩⟩

/-- A step with the unregistered action `backdoor`. -/
def backdoorStep : ScenarioStep := ⟨"b1", "backdoor", []⟩

/-- Scenario running `backdoorStep`. -/
def backdoorScen : Scenario := ⟨"bd", [backdoorStep], ⟨some 2, some 0⟩⟩

/-! Projection lemmas for the state operations. -/

@[simp] lemma log_nodes (s : ArchState) (m : String) : (s.log m).nodes = s.nodes := rfl

@[simp] lemma log_edges (s : ArchState) (m : String) : (s.log m).edges = s.edges := rfl

@[simp] lemma log_controls (s : ArchState) (m : String) : (s.log m).controls = s.controls := rfl

@[simp] lemma log_events (s : ArchState) (m : String) : (s.log m).events = s.events := rfl

@[simp] lemma log_logs (s : ArchState) (m : String) :
    (s.log m).logs = s.logs ++ [mkLine s.tick m] := rfl

@[simp] lemma log_tick (s : ArchState) (m : String) : (s.log m).tick = s.tick := rfl

@[simp] lemma log_rng (s : ArchState) (m : String) : (s.log m).rng = s.rng := rfl

@[simp] lemma log_rngIdx (s : ArchState) (m : String) : (s.log m).rngIdx = s.rngIdx := rfl

@[simp] lemma sleep_nodes (s : ArchState) (d : ℚ) : (s.sleep d).nodes = s.nodes := rfl

@[simp] lemma sleep_edges (s : ArchState) (d : ℚ) : (s.sleep d).edges = s.edges := rfl

@[simp] lemma sleep_controls (s : ArchState) (d : ℚ) : (s.sleep d).controls = s.controls := rfl

@[simp] lemma sleep_events (s : ArchState) (d : ℚ) : (s.sleep d).events = s.events := rfl

@[simp] lemma sleep_logs (s : ArchState) (d : ℚ) : (s.sleep d).logs = s.logs := rfl

@[simp] lemma sleep_tick (s : ArchState) (d : ℚ) : (s.sleep d).tick = s.tick := rfl

@[simp] lemma sleep_rng (s : ArchState) (d : ℚ) : (s.sleep d).rng = s.rng := rfl

@[simp] lemma sleep_rngIdx (s : ArchState) (d : ℚ) : (s.sleep d).rngIdx = s.rngIdx := rfl

@[simp] lemma preStep_nodes (td : ℚ) (s : ArchState) (st : ScenarioStep) :
    (preStep td s st).nodes = s.nodes := by
  unfold preStep; split <;> rfl

@[simp] lemma preStep_edges (td : ℚ) (s : ArchState) (st : ScenarioStep) :
    (preStep td s st).edges = s.edges := by
  unfold preStep; split <;> rfl

@[simp] lemma preStep_controls (td : ℚ) (s : ArchState) (st : ScenarioStep) :
    (preStep td s st).controls = s.controls := by
  unfold preStep; split <;> rfl

@[simp] lemma preStep_events (td : ℚ) (s : ArchState) (st : ScenarioStep) :
    (preStep td s st).events = s.events := by
  unfold preStep; split <;> rfl

@[simp] lemma preStep_logs (td : ℚ) (s : ArchState) (st : ScenarioStep) :
    (preStep td s st).logs =
      s.logs ++ [mkLine (s.tick + 1) ("⚡ Executing step " ++ st.id ++ ": " ++ st.action)] := by
  unfold preStep; split <;> rfl

@[simp] lemma preStep_tick (td : ℚ) (s : ArchState) (st : ScenarioStep) :
    (preStep td s st).tick = s.tick + 1 := by
  unfold preStep; split <;> rfl

@[simp] lemma preStep_rng (td : ℚ) (s : ArchState) (st : ScenarioStep) :
    (preStep td s st).rng = s.rng := by
  unfold preStep; split <;> rfl

@[simp] lemma preStep_rngIdx (td : ℚ) (s : ArchState) (st : ScenarioStep) :
    (preStep td s st).rngIdx = s.rngIdx := by
  unfold preStep; split <;> rfl

/-! The run invariant: the interpreter leaves the topology and the random
stream untouched, never decreases the tick, only appends to `logs` (always
tick-tagged lines) and only appends `"ALERT.EXFIL"` entries to `events`. -/

lemma Tagged.mono {lo hi lo' hi' : ℕ} {e : String} (h : Tagged lo hi e)
    (h1 : lo' ≤ lo) (h2 : hi ≤ hi') : Tagged lo' hi' e := by
  obtain ⟨t, m, rfl, hl, hr⟩ := h
  exact ⟨t, m, rfl, le_trans h1 hl, le_trans hr h2⟩

lemma Evolves.refl (s : ArchState) : Evolves s s :=
  ⟨rfl, rfl, rfl, rfl, le_rfl, ⟨[], by simp, by simp⟩, ⟨[], by simp, by simp⟩⟩

lemma Evolves.trans {a b c : ArchState} (h1 : Evolves a b) (h2 : Evolves b c) :
    Evolves a c := by
  refine ⟨h2.nodes.trans h1.nodes, h2.edges.trans h1.edges,
    h2.controls.trans h1.controls, h2.rng.trans h1.rng,
    le_trans h1.tick_le h2.tick_le, ?_, ?_⟩
  · obtain ⟨l1, e1, t1⟩ := h1.logsE
    obtain ⟨l2, e2, t2⟩ := h2.logsE
    refine ⟨l1 ++ l2, by rw [e2, e1, List.append_assoc], ?_⟩
    intro e he
    rcases List.mem_append.1 he with h | h
    · exact (t1 e h).mono le_rfl h2.tick_le
    · exact (t2 e h).mono h1.tick_le le_rfl
  · obtain ⟨l1, e1, t1⟩ := h1.eventsE
    obtain ⟨l2, e2, t2⟩ := h2.eventsE
    refine ⟨l1 ++ l2, by rw [e2, e1, List.append_assoc], ?_⟩
    intro e he
    rcases List.mem_append.1 he with h | h
    · exact t1 e h
    · exact t2 e h

lemma evolves_log (s : ArchState) (m : String) : Evolves s (s.log m) := by
  refine ⟨rfl, rfl, rfl, rfl, le_rfl, ⟨[mkLine s.tick m], rfl, ?_⟩, ⟨[], by simp, by simp⟩⟩
  intro e he
  simp only [List.mem_singleton] at he
  exact he ▸ ⟨s.tick, m, rfl, le_rfl, le_rfl⟩

lemma evolves_sleep (s : ArchState) (d : ℚ) : Evolves s (s.sleep d) :=
  ⟨rfl, rfl, rfl, rfl, le_rfl, ⟨[], by simp, by simp⟩, ⟨[], by simp, by simp⟩⟩

lemma evolves_tick_succ (s : ArchState) : Evolves s { s with tick := s.tick + 1 } :=
  ⟨rfl, rfl, rfl, rfl, Nat.le_succ _, ⟨[], by simp, by simp⟩, ⟨[], by simp, by simp⟩⟩

lemma evolves_rngIdx (s : ArchState) (j : ℕ) : Evolves s { s with rngIdx := j } :=
  ⟨rfl, rfl, rfl, rfl, le_rfl, ⟨[], by simp, by simp⟩, ⟨[], by simp, by simp⟩⟩

lemma evolves_push_event (s : ArchState) :
    Evolves s { s with events := s.events ++ ["ALERT.EXFIL"] } :=
  ⟨rfl, rfl, rfl, rfl, le_rfl, ⟨[], by simp, by simp⟩,
    ⟨["ALERT.EXFIL"], rfl, by simp⟩⟩

lemma evolves_preStep (td : ℚ) (s : ArchState) (st : ScenarioStep) :
    Evolves s (preStep td s st) := by
  unfold preStep
  split
  · exact (((evolves_tick_succ s).trans (evolves_log _ _)).trans (evolves_sleep _ _))
  · exact ((evolves_tick_succ s).trans (evolves_log _ _))

lemma outEvolves_comp {a b : ArchState} {o : StepOut} (hab : Evolves a b)
    (htick : b.tick = a.tick) (h : OutEvolves b o) : OutEvolves a o := by
  cases o with
  | halt r s' =>
    obtain ⟨h1, h2, h3, h4⟩ := h
    exact ⟨hab.trans h1, h2.trans htick, h3, h4⟩
  | jump l s' =>
    obtain ⟨h1, h2⟩ := h
    exact ⟨hab.trans h1, h2.trans htick⟩
  | thru s' =>
    obtain ⟨h1, h2⟩ := h
    exact ⟨hab.trans h1, h2.trans htick⟩

lemma branchJump_evolves (s : ArchState) (v : Option PVal) :
    OutEvolves s (branchJump s v) := by
  unfold branchJump
  match v with
  | none => exact ⟨Evolves.refl s, rfl⟩
  | some (PVal.str t) => exact ⟨Evolves.refl s, rfl⟩
  | some (PVal.num q) => exact ⟨Evolves.refl s, rfl⟩
  | some (PVal.jump k label) =>
    dsimp only
    split
    · exact ⟨Evolves.refl s, rfl⟩
    · split
      · exact ⟨evolves_log s _, rfl, rfl, rfl⟩
      · exact ⟨Evolves.refl s, rfl⟩

lemma outEvolves_branch_after (s : ArchState) (m : String) (v : Option PVal) :
    OutEvolves s (branchJump (ArchState.log { s with rngIdx := s.rngIdx + 1 } m) v) := by
  have e1 : Evolves s { s with rngIdx := s.rngIdx + 1 } := evolves_rngIdx s _
  have e2 : Evolves { s with rngIdx := s.rngIdx + 1 }
      (ArchState.log { s with rngIdx := s.rngIdx + 1 } m) := evolves_log _ m
  exact outEvolves_comp (e1.trans e2) rfl (branchJump_evolves _ _)

lemma evolves_exfil_detected (s : ArchState) (m : String) :
    Evolves s (ArchState.log
      { { s with rngIdx := s.rngIdx + 1 } with
          events := ArchState.events { s with rngIdx := s.rngIdx + 1 } ++ ["ALERT.EXFIL"] } m) ∧
    (ArchState.log
      { { s with rngIdx := s.rngIdx + 1 } with
          events := ArchState.events { s with rngIdx := s.rngIdx + 1 } ++ ["ALERT.EXFIL"] } m).tick
      = s.tick := by
  have e1 : Evolves s { s with rngIdx := s.rngIdx + 1 } := evolves_rngIdx s _
  have e2 := evolves_push_event { s with rngIdx := s.rngIdx + 1 }
  have e3 := evolves_log
    { { s with rngIdx := s.rngIdx + 1 } with
        events := ArchState.events { s with rngIdx := s.rngIdx + 1 } ++ ["ALERT.EXFIL"] } m
  exact ⟨(e1.trans e2).trans e3, rfl⟩

lemma execStep_evolves (step : ScenarioStep) (s : ArchState) :
    OutEvolves s (execStep step s) := by
  unfold execStep
  by_cases h1 : step.action = "exploit"
  · rw [if_pos h1]
    exact outEvolves_branch_after s _ _
  · rw [if_neg h1]
    by_cases h2 : step.action = "move_lateral"
    · rw [if_pos h2]
      exact outEvolves_branch_after s _ _
    · rw [if_neg h2]
      by_cases h3 : step.action = "exfiltrate"
      · rw [if_pos h3]
        dsimp only
        by_cases h4 : s.rng s.rngIdx < getNum step.params "detect_prob" 0
        · rw [if_pos (by exact decide_eq_true h4)]
          cases hd : step.params.lookup "on_detect" with
          | none =>
            exact evolves_exfil_detected s _
          | some v =>
            cases v with
            | str t => exact evolves_exfil_detected s _
            | num q => exact evolves_exfil_detected s _
            | jump k label =>
              dsimp only
              by_cases h5 : k = "end"
              · rw [if_pos h5]
                obtain ⟨e1, e2⟩ := evolves_exfil_detected s
                  ("🚨 Exfiltration detected! (" ++ toString (getNum step.params "data_volume" 0) ++ " MB)")
                have e3 := evolves_log (ArchState.log
                  { { s with rngIdx := s.rngIdx + 1 } with
                      events := ArchState.events { s with rngIdx := s.rngIdx + 1 } ++ ["ALERT.EXFIL"] }
                  ("🚨 Exfiltration detected! (" ++ toString (getNum step.params "data_volume" 0) ++ " MB)"))
                  ("🏁 END: " ++ label.toUpper)
                exact ⟨e1.trans e3, e2, rfl, rfl⟩
              · rw [if_neg h5]
                exact evolves_exfil_detected s _
        · rw [if_neg (by simp [h4])]
          exact outEvolves_branch_after s _ _
      · rw [if_neg h3]
        exact ⟨evolves_log s _, rfl, rfl, rfl⟩

lemma finishMax_evolves (ms : ℕ) (s : ArchState) :
    Evolves s (finishMax ms s).2 ∧ (finishMax ms s).2.tick = s.tick ∧
      (finishMax ms s).1.logs = (finishMax ms s).2.logs ∧
      (finishMax ms s).1.events = (finishMax ms s).2.events := by
  unfold finishMax
  exact ⟨evolves_log s _, rfl, rfl, rfl⟩

lemma runLoop_evolves (td : ℚ) (ms : ℕ) (steps : List ScenarioStep) :
    ∀ (fuel : ℕ) (cur : String) (s : ArchState),
      Evolves s (runLoop td ms steps fuel cur s).2 ∧
      (runLoop td ms steps fuel cur s).2.tick ≤ s.tick + fuel ∧
      (runLoop td ms steps fuel cur s).1.logs = (runLoop td ms steps fuel cur s).2.logs ∧
      (runLoop td ms steps fuel cur s).1.events = (runLoop td ms steps fuel cur s).2.events := by
  intro fuel
  induction fuel with
  | zero =>
    intro cur s
    rw [runLoop]
    obtain ⟨h1, h2, h3, h4⟩ := finishMax_evolves ms s
    exact ⟨h1, by omega, h3, h4⟩
  | succ n ih =>
    intro cur s
    rw [runLoop]
    cases hl : stepLookup steps cur with
    | none =>
      dsimp only
      obtain ⟨h1, h2, h3, h4⟩ := finishMax_evolves ms (s.log ("❌ Step not found: " ++ cur))
      refine ⟨(evolves_log s _).trans h1, ?_, h3, h4⟩
      simp only [log_tick] at h2
      omega
    | some step =>
      dsimp only
      have hpre : Evolves s (preStep td s step) := evolves_preStep td s step
      have hpt := preStep_tick td s step
      have hout := execStep_evolves step (preStep td s step)
      cases hx : execStep step (preStep td s step) with
      | halt r s' =>
        rw [hx] at hout
        obtain ⟨h1, h2, h3, h4⟩ := hout
        dsimp only
        exact ⟨hpre.trans h1, by omega, h3, h4⟩
      | jump label s' =>
        rw [hx] at hout
        obtain ⟨h1, h2⟩ := hout
        obtain ⟨g1, g2, g3, g4⟩ := ih label s'
        dsimp only
        exact ⟨(hpre.trans h1).trans g1, by omega, g3, g4⟩
      | thru s' =>
        rw [hx] at hout
        obtain ⟨h1, h2⟩ := hout
        obtain ⟨f1, f2, f3, f4⟩ :=
          finishMax_evolves ms (s'.log "❌ No valid transition found, ending scenario")
        simp only [log_tick] at f2
        dsimp only
        exact ⟨((hpre.trans h1).trans (evolves_log s' _)).trans f1, by omega, f3, f4⟩

/-- Run-level invariant: `run_scenario` evolves the state (frame conditions,
append-only tagged logs, append-only `ALERT.EXFIL` events), its final tick is
bounded by the step budget, the empty scenario leaves the state untouched,
and for a non-empty scenario the returned record carries the final state's
logs and events. -/
lemma run_evolves (st : ArchState) (scen : Scenario) :
    Evolves st (run_scenario st scen).2 ∧
    (run_scenario st scen).2.tick ≤ st.tick + scen.timeline.max_steps.getD 20 ∧
    (scen.steps = [] →
      run_scenario st scen = (⟨"no_steps", ["❌ No steps found in scenario"], []⟩, st)) ∧
    (scen.steps ≠ [] →
      (run_scenario st scen).1.logs = (run_scenario st scen).2.logs ∧
      (run_scenario st scen).1.events = (run_scenario st scen).2.events) := by
  cases hs : scen.steps with
  | nil =>
    have hrun : run_scenario st scen = (⟨"no_steps", ["❌ No steps found in scenario"], []⟩, st) := by
      unfold run_scenario
      rw [hs]
    rw [hrun]
    exact ⟨Evolves.refl st, by dsimp only; omega, fun _ => rfl, fun h => absurd rfl h⟩
  | cons s0 rest =>
    have hrun : run_scenario st scen =
        runLoop (scen.timeline.tick_delay.getD (1/2)) (scen.timeline.max_steps.getD 20)
          scen.steps (scen.timeline.max_steps.getD 20) s0.id
          (((st.log ("🚀 Running scenario: " ++ scen.name)).log
              ("📊 Timeline: max_steps=" ++ toString (scen.timeline.max_steps.getD 20) ++
                ", tick_delay=" ++ toString (scen.timeline.tick_delay.getD (1/2)) ++ "s")).log
            ("🎯 Starting from step: " ++ s0.id)) := by
      unfold run_scenario
      rw [hs]
    rw [hrun]
    set st3 := (((st.log ("🚀 Running scenario: " ++ scen.name)).log
      ("📊 Timeline: max_steps=" ++ toString (scen.timeline.max_steps.getD 20) ++
        ", tick_delay=" ++ toString (scen.timeline.tick_delay.getD (1/2)) ++ "s")).log
      ("🎯 Starting from step: " ++ s0.id)) with hst3
    have hev3 : Evolves st st3 := by
      rw [hst3]
      exact ((evolves_log st _).trans (evolves_log _ _)).trans (evolves_log _ _)
    have htick3 : st3.tick = st.tick := by rw [hst3]; simp
    obtain ⟨g1, g2, g3, g4⟩ := runLoop_evolves (scen.timeline.tick_delay.getD (1/2))
      (scen.timeline.max_steps.getD 20) scen.steps (scen.timeline.max_steps.getD 20) s0.id st3
    refine ⟨hev3.trans g1, by omega, ?_, fun _ => ⟨g3, g4⟩⟩
    intro h
    exact absurd h (by simp)

/-! Non-interference of the side channels: two states that agree on every
field the engine reads (everything except the ghost `slept` and `printed`
channels) stay in lock step and produce the same result record. -/

lemma SideEq.log {s t : ArchState} (h : SideEq s t) (m : String) :
    SideEq (s.log m) (t.log m) := by
  constructor <;>
    simp [h.nodes, h.edges, h.controls, h.events, h.logs, h.tick, h.rng, h.rngIdx]

lemma SideEq.sleep {s t : ArchState} (h : SideEq s t) (d : ℚ) :
    SideEq (s.sleep d) (t.sleep d) := by
  constructor <;>
    simp [h.nodes, h.edges, h.controls, h.events, h.logs, h.tick, h.rng, h.rngIdx]

lemma SideEq.bump {s t : ArchState} (h : SideEq s t) :
    SideEq { s with rngIdx := s.rngIdx + 1 } { t with rngIdx := t.rngIdx + 1 } := by
  constructor <;>
    simp [h.nodes, h.edges, h.controls, h.events, h.logs, h.tick, h.rng, h.rngIdx]

lemma SideEq.pushEvent {s t : ArchState} (h : SideEq s t) :
    SideEq { s with events := s.events ++ ["ALERT.EXFIL"] }
      { t with events := t.events ++ ["ALERT.EXFIL"] } := by
  constructor <;>
    simp [h.nodes, h.edges, h.controls, h.events, h.logs, h.tick, h.rng, h.rngIdx]

lemma SideEq.preStepEq {s t : ArchState} (h : SideEq s t) (td : ℚ) (step : ScenarioStep) :
    SideEq (preStep td s step) (preStep td t step) := by
  constructor <;>
    simp [h.nodes, h.edges, h.controls, h.events, h.logs, h.tick, h.rng, h.rngIdx]

lemma ctrl_eff_sideEq {s t : ArchState} (h : SideEq s t) (c k : String) :
    s.ctrl_eff c k = t.ctrl_eff c k := by
  unfold ArchState.ctrl_eff
  rw [h.controls]

lemma eff_node_sideEq {s t : ArchState} (h : SideEq s t) (n k : String) :
    s.eff_node n k = t.eff_node n k := by
  unfold ArchState.eff_node
  rw [h.nodes]
  cases t.nodes.lookup n with
  | none => rfl
  | some node =>
    simp only [ctrl_eff_sideEq h]

lemma eval_prob_sideEq {s t : ArchState} (h : SideEq s t) (k : String)
    (tg : Option String) (p : Option (List String)) (b c : ℚ) :
    eval_prob s k tg p b c = eval_prob t k tg p b c := by
  unfold eval_prob
  simp only [eff_node_sideEq h]

lemma branchJump_sideEq {s t : ArchState} (h : SideEq s t) (v : Option PVal) :
    OutSideEq (branchJump s v) (branchJump t v) := by
  unfold branchJump
  match v with
  | none => exact h
  | some (PVal.str a) => exact h
  | some (PVal.num q) => exact h
  | some (PVal.jump k label) =>
    dsimp only
    by_cases h1 : k = "goto"
    · rw [if_pos h1, if_pos h1]
      exact ⟨rfl, h⟩
    · rw [if_neg h1, if_neg h1]
      by_cases h2 : k = "end"
      · rw [if_pos h2, if_pos h2]
        have he := h.log ("🏁 END: " ++ label.toUpper)
        exact ⟨by rw [RunResult.mk.injEq]; exact ⟨rfl, he.logs, he.events⟩, he⟩
      · rw [if_neg h2, if_neg h2]
        exact h

lemma execStep_sideEq {s t : ArchState} (h : SideEq s t) (step : ScenarioStep) :
    OutSideEq (execStep step s) (execStep step t) := by
  unfold execStep
  have hdraw : s.rng s.rngIdx = t.rng t.rngIdx := by rw [h.rng, h.rngIdx]
  by_cases h1 : step.action = "exploit"
  · simp only [if_pos h1]
    rw [hdraw, eval_prob_sideEq h]
    exact branchJump_sideEq ((h.bump).log _) _
  · simp only [if_neg h1]
    by_cases h2 : step.action = "move_lateral"
    · simp only [if_pos h2]
      rw [hdraw, eval_prob_sideEq h]
      exact branchJump_sideEq ((h.bump).log _) _
    · simp only [if_neg h2]
      by_cases h3 : step.action = "exfiltrate"
      · simp only [if_pos h3]
        rw [hdraw]
        by_cases h4 : t.rng t.rngIdx < getNum step.params "detect_prob" 0
        · rw [if_pos (by exact decide_eq_true h4), if_pos (by exact decide_eq_true h4)]
          cases hd : step.params.lookup "on_detect" with
          | none => exact ((h.bump).pushEvent).log _
          | some v =>
            cases v with
            | str a => exact ((h.bump).pushEvent).log _
            | num q => exact ((h.bump).pushEvent).log _
            | jump k label =>
              dsimp only
              by_cases h5 : k = "end"
              · rw [if_pos h5, if_pos h5]
                have he := ((((h.bump).pushEvent).log
                  ("🚨 Exfiltration detected! (" ++ toString (getNum step.params "data_volume" 0) ++ " MB)")).log
                  ("🏁 END: " ++ label.toUpper))
                exact ⟨by rw [RunResult.mk.injEq]; exact ⟨rfl, he.logs, he.events⟩, he⟩
              · rw [if_neg h5, if_neg h5]
                exact ((h.bump).pushEvent).log _
        · rw [if_neg (by simp [h4]), if_neg (by simp [h4])]
          exact branchJump_sideEq ((h.bump).log _) _
      · simp only [if_neg h3]
        have he := h.log ("⚠️  Unknown action: " ++ step.action)
        exact ⟨by rw [RunResult.mk.injEq]; exact ⟨rfl, he.logs, he.events⟩, he⟩

lemma finishMax_sideEq {s t : ArchState} (h : SideEq s t) (ms : ℕ) :
    (finishMax ms s).1 = (finishMax ms t).1 ∧ SideEq (finishMax ms s).2 (finishMax ms t).2 := by
  unfold finishMax
  have he := h.log ("⏰ Maximum steps (" ++ toString ms ++ ") reached")
  exact ⟨by rw [RunResult.mk.injEq]; exact ⟨rfl, he.logs, he.events⟩, he⟩

lemma runLoop_sideEq (td : ℚ) (ms : ℕ) (steps : List ScenarioStep) :
    ∀ (fuel : ℕ) (cur : String) (s t : ArchState), SideEq s t →
      (runLoop td ms steps fuel cur s).1 = (runLoop td ms steps fuel cur t).1 ∧
      SideEq (runLoop td ms steps fuel cur s).2 (runLoop td ms steps fuel cur t).2 := by
  intro fuel
  induction fuel with
  | zero =>
    intro cur s t h
    rw [runLoop, runLoop]
    exact finishMax_sideEq h ms
  | succ n ih =>
    intro cur s t h
    rw [runLoop, runLoop]
    cases hl : stepLookup steps cur with
    | none =>
      dsimp only
      exact finishMax_sideEq (h.log _) ms
    | some step =>
      dsimp only
      have hpre := h.preStepEq td step
      have hout := execStep_sideEq hpre step
      cases hx : execStep step (preStep td s step) with
      | halt r s' =>
        cases hy : execStep step (preStep td t step) with
        | halt r' t' =>
          rw [hx, hy] at hout
          obtain ⟨hr, hs⟩ := hout
          exact ⟨hr, hs⟩
        | jump l' t' => rw [hx, hy] at hout; exact absurd hout (by simp [OutSideEq])
        | thru t' => rw [hx, hy] at hout; exact absurd hout (by simp [OutSideEq])
      | jump label s' =>
        cases hy : execStep step (preStep td t step) with
        | halt r' t' => rw [hx, hy] at hout; exact absurd hout (by simp [OutSideEq])
        | jump l' t' =>
          rw [hx, hy] at hout
          obtain ⟨hlbl, hs⟩ := hout
          subst hlbl
          exact ih label s' t' hs
        | thru t' => rw [hx, hy] at hout; exact absurd hout (by simp [OutSideEq])
      | thru s' =>
        cases hy : execStep step (preStep td t step) with
        | halt r' t' => rw [hx, hy] at hout; exact absurd hout (by simp [OutSideEq])
        | jump l' t' => rw [hx, hy] at hout; exact absurd hout (by simp [OutSideEq])
        | thru t' =>
          rw [hx, hy] at hout
          exact finishMax_sideEq (hout.log _) ms

lemma run_scenario_sideEq {s t : ArchState} (h : SideEq s t) (scen : Scenario) :
    (run_scenario s scen).1 = (run_scenario t scen).1 := by
  cases hs : scen.steps with
  | nil =>
    unfold run_scenario
    rw [hs]
  | cons s0 rest =>
    unfold run_scenario
    rw [hs]
    dsimp only
    exact (runLoop_sideEq _ _ _ _ _ _ _ (((h.log _).log _).log _)).1

/-! Small helpers for the claim statements. -/

lemma foldl_mul_eq (f : String → ℚ) (l : List String) (init : ℚ) :
    l.foldl (fun a x => a * f x) init = init * (l.map f).prod := by
  induction l generalizing init with
  | nil => simp
  | cons a tl ih => simp [ih, mul_assoc]

/-- The combined-effectiveness formula for an existing node, with the fold
written as a product. -/
lemma eff_node_some {s : ArchState} {node : Node} {n : String} (k : String)
    (h : s.nodes.lookup n = some node) :
    s.eff_node n k = 1 - (node.controls.map (fun c => 1 - s.ctrl_eff c k)).prod := by
  unfold ArchState.eff_node
  rw [h]
  dsimp only
  rw [foldl_mul_eq, one_mul]

lemma tickTagged_head {e : String} (h : tickTagged e) : e.data.head? = some '[' := by
  obtain ⟨t, m, rfl⟩ := h
  rfl

/-! Loop-level helper lemmas about single-step behaviour. -/

lemma runLoop_exfil_detected (td : ℚ) (ms : ℕ) (steps : List ScenarioStep)
    (fuel : ℕ) (cur : String) (s : ArchState) (step : ScenarioStep)
    (hfind : stepLookup steps cur = some step)
    (hact : step.action = "exfiltrate")
    (hdp : getNum step.params "detect_prob" 0 = 1)
    (hdraw : s.rng s.rngIdx < 1) :
    (runLoop td ms steps (fuel + 1) cur s).2.events = s.events ++ ["ALERT.EXFIL"] ∧
    (∀ l, step.params.lookup "on_detect" = some (PVal.jump "end" l) →
      (runLoop td ms steps (fuel + 1) cur s).1.result = l) ∧
    (∀ l, step.params.lookup "on_detect" = some (PVal.jump "goto" l) →
      (runLoop td ms steps (fuel + 1) cur s).1.result = "max_steps") := by
  have hne1 : ¬step.action = "exploit" := by rw [hact]; decide
  have hne2 : ¬step.action = "move_lateral" := by rw [hact]; decide
  rw [runLoop, hfind]
  dsimp only
  rw [execStep]
  rw [if_neg hne1, if_neg hne2, if_pos hact]
  dsimp only
  rw [hdp]
  simp only [preStep_rng, preStep_rngIdx]
  rw [if_pos (decide_eq_true hdraw)]
  cases hod : step.params.lookup "on_detect" with
  | none =>
    refine ⟨?_, ?_, ?_⟩
    · simp [finishMax]
    · intro l hl; cases hl
    · intro l hl; cases hl
  | some v =>
    cases v with
    | str a =>
      refine ⟨?_, ?_, ?_⟩
      · simp [finishMax]
      · intro l hl; cases hl
      · intro l hl; cases hl
    | num q =>
      refine ⟨?_, ?_, ?_⟩
      · simp [finishMax]
      · intro l hl; cases hl
      · intro l hl; cases hl
    | jump k label =>
      dsimp only
      refine ⟨?_, ?_, ?_⟩
      · by_cases hk : k = "end"
        · rw [if_pos hk]
          simp
        · rw [if_neg hk]
          simp [finishMax]
      · intro l hl
        rw [Option.some.injEq, PVal.jump.injEq] at hl
        obtain ⟨hk, hlbl⟩ := hl
        subst hk; subst hlbl
        rw [if_pos rfl]
      · intro l hl
        rw [Option.some.injEq, PVal.jump.injEq] at hl
        obtain ⟨hk, hlbl⟩ := hl
        subst hk; subst hlbl
        rw [if_neg (by decide : ¬("goto" : String) = "end")]
        simp [finishMax]

lemma runLoop_unknown_action (td : ℚ) (ms : ℕ) (steps : List ScenarioStep)
    (fuel : ℕ) (cur : String) (s : ArchState) (step : ScenarioStep)
    (hfind : stepLookup steps cur = some step)
    (h1 : ¬step.action = "exploit")
    (h2 : ¬step.action = "move_lateral")
    (h3 : ¬step.action = "exfiltrate") :
    (runLoop td ms steps (fuel + 1) cur s).1.result = "unknown_action" ∧
    (runLoop td ms steps (fuel + 1) cur s).2.tick = s.tick + 1 ∧
    (runLoop td ms steps (fuel + 1) cur s).1.logs = s.logs ++
      [mkLine (s.tick + 1) ("⚡ Executing step " ++ step.id ++ ": " ++ step.action),
       mkLine (s.tick + 1) ("⚠️  Unknown action: " ++ step.action)] := by
  rw [runLoop, hfind]
  dsimp only
  rw [execStep]
  rw [if_neg h1, if_neg h2, if_neg h3]
  dsimp only
  refine ⟨rfl, by simp, by simp⟩

lemma runLoop_step_not_found (td : ℚ) (ms : ℕ) (steps : List ScenarioStep)
    (fuel : ℕ) (cur : String) (s : ArchState)
    (hfind : stepLookup steps cur = none) :
    (runLoop td ms steps (fuel + 1) cur s).1.result = "max_steps" ∧
    (runLoop td ms steps (fuel + 1) cur s).2.tick = s.tick ∧
    mkLine s.tick ("❌ Step not found: " ++ cur) ∈ (runLoop td ms steps (fuel + 1) cur s).1.logs := by
  rw [runLoop, hfind]
  dsimp only
  refine ⟨rfl, by simp [finishMax], by simp [finishMax]⟩

lemma runLoop_no_transition (td : ℚ) (ms : ℕ) (steps : List ScenarioStep)
    (fuel : ℕ) (cur : String) (s s' : ArchState) (step : ScenarioStep)
    (hfind : stepLookup steps cur = some step)
    (hthru : execStep step (preStep td s step) = StepOut.thru s') :
    (runLoop td ms steps (fuel + 1) cur s).1.result = "max_steps" ∧
    (runLoop td ms steps (fuel + 1) cur s).2.tick = s.tick + 1 ∧
    mkLine (s.tick + 1) "❌ No valid transition found, ending scenario"
      ∈ (runLoop td ms steps (fuel + 1) cur s).1.logs := by
  have hout := execStep_evolves step (preStep td s step)
  rw [hthru] at hout
  obtain ⟨hev, htick⟩ := hout
  rw [preStep_tick] at htick
  rw [runLoop, hfind]
  dsimp only
  rw [hthru]
  dsimp only
  refine ⟨rfl, by simp [finishMax, htick], by simp [finishMax, htick]⟩

lemma execStep_exploit_malformed (s : ArchState) (step : ScenarioStep)
    (hact : step.action = "exploit")
    (hsel : jumpTaken (step.params.lookup
      (if decide (s.rng s.rngIdx < eval_prob s (getStr step.params "type" "generic")
          (some (getStr step.params "target" "unknown")) none
          (getNum step.params "base_success" (1/2)) 1)
        then "on_success" else "on_fail")) = false) :
    ∃ s', execStep step s = StepOut.thru s' := by
  rw [execStep, if_pos hact]
  dsimp only
  cases hv : step.params.lookup
      (if decide (s.rng s.rngIdx < eval_prob s (getStr step.params "type" "generic")
          (some (getStr step.params "target" "unknown")) none
          (getNum step.params "base_success" (1/2)) 1)
        then "on_success" else "on_fail") with
  | none => exact ⟨_, rfl⟩
  | some v =>
    rw [hv] at hsel
    cases v with
    | str a => exact ⟨_, rfl⟩
    | num q => exact ⟨_, rfl⟩
    | jump k label =>
      simp only [jumpTaken, Bool.or_eq_false_iff, beq_eq_false_iff_ne, ne_eq] at hsel
      rw [branchJump]
      rw [if_neg hsel.1, if_neg hsel.2]
      exact ⟨_, rfl⟩

/-- A convenient unfolding of `run_scenario` on a non-empty scenario: log the
three header lines, then run the loop from the first step's id with the
resolved budget. -/
lemma run_scenario_cons (st : ArchState) (scen : Scenario) (s0 : ScenarioStep)
    (rest : List ScenarioStep) (hs : scen.steps = s0 :: rest) :
    run_scenario st scen =
      runLoop (scen.timeline.tick_delay.getD (1/2)) (scen.timeline.max_steps.getD 20)
        scen.steps (scen.timeline.max_steps.getD 20) s0.id
        (((st.log ("🚀 Running scenario: " ++ scen.name)).log
            ("📊 Timeline: max_steps=" ++ toString (scen.timeline.max_steps.getD 20) ++
              ", tick_delay=" ++ toString (scen.timeline.tick_delay.getD (1/2)) ++ "s")).log
          ("🎯 Starting from step: " ++ s0.id)) := by
  unfold run_scenario
  rw [hs]

section ClaimTheorems

attribute [local semireducible] Rat.add Rat.sub Rat.mul Rat.inv

/-- Claim C2: `eff_node` returns 0.0 for a missing node and for a node with
no controls; otherwise it returns `1 − ∏ (1 − effᵢ)` over the node's
controls, where a control's effectiveness defaults to 0.0 for a missing
kind; a single control of effectiveness `e` yields `e`, two controls yield
`1 − (1−e1)(1−e2)`, which is at least `max e1 e2` for values in `[0,1]`. -/
theorem eff_node_combination :
    (∀ (s : ArchState) (n k : String), s.nodes.lookup n = none → s.eff_node n k = 0) ∧
    (∀ (s : ArchState) (n k : String) (node : Node), s.nodes.lookup n = some node →
      s.eff_node n k = 1 - (node.controls.map (fun c => 1 - s.ctrl_eff c k)).prod) ∧
    (∀ (s : ArchState) (n k : String) (node : Node), s.nodes.lookup n = some node →
      node.controls = [] → s.eff_node n k = 0) ∧
    (∀ (s : ArchState) (c k : String) (ctl : Control), s.controls.lookup c = some ctl →
      ctl.effectiveness.lookup k = none → s.ctrl_eff c k = 0) ∧
    (∀ (s : ArchState) (n k : String) (node : Node) (c : String),
      s.nodes.lookup n = some node → node.controls = [c] →
      s.eff_node n k = s.ctrl_eff c k) ∧
    (∀ (s : ArchState) (n k : String) (node : Node) (c1 c2 : String),
      s.nodes.lookup n = some node → node.controls = [c1, c2] →
      s.eff_node n k = 1 - (1 - s.ctrl_eff c1 k) * (1 - s.ctrl_eff c2 k)) ∧
    (∀ (e1 e2 : ℚ), 0 ≤ e1 → e1 ≤ 1 → 0 ≤ e2 → e2 ≤ 1 →
      max e1 e2 ≤ 1 - (1 - e1) * (1 - e2)) := by
  refine ⟨?_, ?_, ?_, ?_, ?_, ?_, ?_⟩
  · intro s n k h
    unfold ArchState.eff_node
    rw [h]
  · intro s n k node h
    exact eff_node_some k h
  · intro s n k node h hc
    rw [eff_node_some k h, hc]
    simp
  · intro s c k ctl h h2
    unfold ArchState.ctrl_eff
    rw [h]
    dsimp only
    rw [h2]
  · intro s n k node c h hc
    rw [eff_node_some k h, hc]
    simp
  · intro s n k node c1 c2 h hc
    rw [eff_node_some k h, hc]
    simp [mul_comm]
  · intro e1 e2 h1 h2 h3 h4
    apply max_le <;> nlinarith

/-- Witness for C2 at a concrete topology: node `n` carries controls `c1`,
`c2`, and its combined effectiveness is the two-control formula. -/
theorem eff_node_combination_inst :
    stW.eff_node "n" "k" = 1 - (1 - stW.ctrl_eff "c1" "k") * (1 - stW.ctrl_eff "c2" "k") :=
  eff_node_combination.2.2.2.2.2.1 stW "n" "k" ⟨["c1", "c2"]⟩ "c1" "c2" rfl rfl

/-- Claim C1 (code bug): the spec demands, for a path, blocking strength
`1 − ∏ (1 − eff)` and final probability `clamp(base_p × (1 − blocking) ×
context)`; in particular the one-node path `["A"]` must agree with the call
using `target := "A"`, and a path of zero-effectiveness nodes must leave
`base_p` untouched.  The code assigns `p_block = ∏ (1 − eff)` (the miss
probability) without taking the complement: at node `A` with no controls the
path call evaluates to 0, while the target call evaluates to 1/2. -/
theorem eval_prob_path_inversion :
    eval_prob stA "k" none (some ["A"]) (1/2) 1 = 0 ∧
    eval_prob stA "k" (some "A") none (1/2) 1 = 1/2 ∧
    (0 : ℚ) ≠ 1/2 := by
  refine ⟨by decide, by decide, by decide⟩

/-- Claim C10 counterexample: the claim says a supplied target is used as
blocking fallback, but Python truthiness discards a supplied empty-string
target.  With a node named `""` of combined effectiveness 1/2, the code
returns 1/2 where the claim predicts `clamp(0.5 × (1 − 0.5) × 1) = 1/4`. -/
theorem eval_prob_empty_target_counterex :
    eval_prob stE "k" (some "") (some []) (1/2) 1 = 1/2 ∧
    stE.eff_node "" "k" = 1/2 ∧
    pymax 0 (pymin 1 ((1/2) * (1 - stE.eff_node "" "k") * 1)) = 1/4 ∧
    (1/2 : ℚ) ≠ 1/4 := by
  refine ⟨by decide, by decide, by decide, by decide⟩

/-- Claim C10 (amended): a non-empty path wins over any target; an empty
path falls through; a supplied NON-EMPTY target string falls back to its
combined effectiveness, while an empty-string target (like no target)
yields blocking 0.0, so the probability is `clamp(base_p × context)`. -/
theorem eval_prob_precedence :
    (∀ (s : ArchState) (k : String) (t1 t2 : Option String) (nid : String)
        (rest : List String) (b c : ℚ),
      eval_prob s k t1 (some (nid :: rest)) b c = eval_prob s k t2 (some (nid :: rest)) b c) ∧
    (∀ (s : ArchState) (k : String) (t : Option String) (b c : ℚ),
      eval_prob s k t (some []) b c = eval_prob s k t none b c) ∧
    (∀ (s : ArchState) (k t : String) (b c : ℚ), ¬t = "" →
      eval_prob s k (some t) none b c = pymax 0 (pymin 1 (b * (1 - s.eff_node t k) * c))) ∧
    (∀ (s : ArchState) (k : String) (b c : ℚ),
      eval_prob s k none (some []) b c = pymax 0 (pymin 1 (b * c))) ∧
    (∀ (s : ArchState) (k : String) (b c : ℚ),
      eval_prob s k (some "") none b c = pymax 0 (pymin 1 (b * c))) := by
  refine ⟨?_, ?_, ?_, ?_, ?_⟩
  · intro s k t1 t2 nid rest b c
    rfl
  · intro s k t b c
    rfl
  · intro s k t b c h
    unfold eval_prob
    dsimp only
    rw [if_neg h]
  · intro s k b c
    unfold eval_prob
    dsimp only
    rw [show b * (1 - (0 : ℚ)) * c = b * c by ring]
  · intro s k b c
    unfold eval_prob
    dsimp only
    rw [if_pos rfl]
    rw [show b * (1 - (0 : ℚ)) * c = b * c by ring]

/-- Witness for the amended C10 at a concrete non-empty target. -/
theorem eval_prob_precedence_inst :
    eval_prob stW "k" (some "n") none (1/2) 1 =
      pymax 0 (pymin 1 ((1/2) * (1 - stW.eff_node "n" "k") * 1)) :=
  eval_prob_precedence.2.2.1 stW "k" "n" (1/2) 1 (by decide)

/-- Claim C4: runs from states that agree on topology, controls, events,
logs, tick and the seeded random stream return identical result records
(`result`, `logs`, `events`); the ghost pacing (`slept`) and live-output
(`printed`) channels are unconstrained, so neither affects the returned
fields. -/
theorem run_scenario_deterministic :
    ∀ (s1 s2 : ArchState) (scen : Scenario),
      s1.nodes = s2.nodes → s1.edges = s2.edges → s1.controls = s2.controls →
      s1.events = s2.events → s1.logs = s2.logs → s1.tick = s2.tick →
      s1.rng = s2.rng → s1.rngIdx = s2.rngIdx →
      (run_scenario s1 scen).1 = (run_scenario s2 scen).1 :=
  fun _ _ scen h1 h2 h3 h4 h5 h6 h7 h8 =>
    run_scenario_sideEq ⟨h1, h2, h3, h4, h5, h6, h7, h8⟩ scen

/-- Witness for C4: a run from a state with non-empty side channels returns
the same record as the run from the pristine state. -/
theorem run_scenario_deterministic_inst :
    (run_scenario stP loopScen).1 = (run_scenario st0 loopScen).1 :=
  run_scenario_deterministic stP st0 loopScen rfl rfl rfl rfl rfl rfl rfl rfl

/-- Claim C5: the loop executes at most `max_steps` iterations — the final
tick exceeds the initial one by at most the budget — and the concrete
self-looping scenario with `max_steps = 5` stops after exactly 5 ticks with
result `max_steps`. -/
theorem run_scenario_max_steps_bound :
    (∀ (st : ArchState) (scen : Scenario),
      (run_scenario st scen).2.tick ≤ st.tick + scen.timeline.max_steps.getD 20) ∧
    (run_scenario st0 loopScen).1.result = "max_steps" ∧
    (run_scenario st0 loopScen).2.tick = 5 := by
  refine ⟨fun st scen => (run_evolves st scen).2.1, by decide, by decide⟩

/-- Claim C7 counterexample: the empty-scenario run's returned `logs` is the
fixed one-element list whose entry carries no `[t=NN]` prefix, refuting
"every string in the returned logs is prefixed" for that run. -/
theorem no_steps_log_untagged :
    (run_scenario st0 emptyScen).1.logs = ["❌ No steps found in scenario"] ∧
    ¬ tickTagged "❌ No steps found in scenario" := by
  refine ⟨rfl, ?_⟩
  intro h
  exact absurd (tickTagged_head h) (by decide)

/-- Claim C7 (amended): on a scenario with at least one step the state's
logs are append-only, every entry appended during the run is a
`[t=NN] `-tagged line with `NN` between the run's initial and final tick
(two-digit zero-padded by `pad2`), and the returned record shares the final
state's logs — so a run from empty initial logs returns only tagged lines.
The empty-scenario run instead returns a fresh untagged message. -/
theorem run_logs_tagged :
    ∀ (st : ArchState) (scen : Scenario), scen.steps ≠ [] →
      (∃ nl, (run_scenario st scen).2.logs = st.logs ++ nl ∧
        ∀ e ∈ nl, Tagged st.tick (run_scenario st scen).2.tick e) ∧
      (run_scenario st scen).1.logs = (run_scenario st scen).2.logs ∧
      (st.logs = [] → ∀ e ∈ (run_scenario st scen).1.logs, tickTagged e) := by
  intro st scen hne
  obtain ⟨hev, _, _, hcons⟩ := run_evolves st scen
  obtain ⟨hl1, _⟩ := hcons hne
  refine ⟨hev.logsE, hl1, ?_⟩
  intro hlogs e he
  obtain ⟨nl, hnl, htag⟩ := hev.logsE
  rw [hl1, hnl, hlogs] at he
  simp only [List.nil_append] at he
  obtain ⟨t, m, hm, _, _⟩ := htag e he
  exact ⟨t, m, hm⟩

/-- Witness for the amended C7 on the concrete self-loop scenario. -/
theorem run_logs_tagged_inst :
    (run_scenario st0 loopScen).1.logs = (run_scenario st0 loopScen).2.logs :=
  (run_logs_tagged st0 loopScen (by simp [loopScen])).2.1

/-- Claim C9: the empty-scenario run returns `no_steps` with a fresh
one-element log list (untagged, not appended to the state's logs) and a
fresh empty event list, and leaves the state — tick, logs, events and all —
exactly as it was. -/
theorem run_scenario_no_steps_frame :
    ∀ (st : ArchState) (scen : Scenario), scen.steps = [] →
      run_scenario st scen = (⟨"no_steps", ["❌ No steps found in scenario"], []⟩, st) ∧
      ¬ tickTagged "❌ No steps found in scenario" := by
  intro st scen hs
  refine ⟨(run_evolves st scen).2.2.1 hs, ?_⟩
  intro h
  exact absurd (tickTagged_head h) (by decide)

/-- Witness for C9: run on a state that already holds logs and events; the
returned record is the fixed fresh one and the state is returned intact. -/
theorem run_scenario_no_steps_frame_inst :
    run_scenario stDirty emptyScen =
      (⟨"no_steps", ["❌ No steps found in scenario"], []⟩, stDirty) :=
  (run_scenario_no_steps_frame stDirty emptyScen rfl).1

/-- Claim C3: events are append-only and only `"ALERT.EXFIL"` entries are
ever appended; an exfiltrate step reached first with `detect_prob = 1` and a
draw in `[0,1)` appends `"ALERT.EXFIL"`, returns the label immediately when
`on_detect` is an `end` jump, and does NOT follow a `goto` on the detected
branch (the run falls through to the `max_steps`-shaped return). -/
theorem exfil_detection_behaviour :
    (∀ (st : ArchState) (scen : Scenario), ∃ ev,
      (run_scenario st scen).2.events = st.events ++ ev ∧ ∀ x ∈ ev, x = "ALERT.EXFIL") ∧
    (∀ (st : ArchState) (scen : Scenario) (s0 : ScenarioStep) (rest : List ScenarioStep) (m : ℕ),
      scen.steps = s0 :: rest →
      scen.timeline.max_steps.getD 20 = m + 1 →
      stepLookup scen.steps s0.id = some s0 →
      s0.action = "exfiltrate" →
      getNum s0.params "detect_prob" 0 = 1 →
      st.rng st.rngIdx < 1 →
      (run_scenario st scen).2.events = st.events ++ ["ALERT.EXFIL"] ∧
      (∀ l, s0.params.lookup "on_detect" = some (PVal.jump "end" l) →
        (run_scenario st scen).1.result = l) ∧
      (∀ l, s0.params.lookup "on_detect" = some (PVal.jump "goto" l) →
        (run_scenario st scen).1.result = "max_steps")) := by
  refine ⟨fun st scen => (run_evolves st scen).1.eventsE, ?_⟩
  intro st scen s0 rest m hs hms hfind hact hdp hdraw
  rw [run_scenario_cons st scen s0 rest hs, hms]
  obtain ⟨he, hend, hgoto⟩ := runLoop_exfil_detected
    (scen.timeline.tick_delay.getD (1/2)) (m + 1) scen.steps m s0.id
    (((st.log ("🚀 Running scenario: " ++ scen.name)).log
        ("📊 Timeline: max_steps=" ++ toString (m + 1) ++
          ", tick_delay=" ++ toString (scen.timeline.tick_delay.getD (1/2)) ++ "s")).log
      ("🎯 Starting from step: " ++ s0.id)) s0 hfind hact hdp
    (by simpa using hdraw)
  refine ⟨?_, hend, hgoto⟩
  rw [he]
  simp

/-- Witness for C3: the concrete certain-detection scenario ends at its
`on_detect` label. -/
theorem exfil_detection_behaviour_inst :
    (run_scenario st0 exfilScen).1.result = "stopped" := by
  have h := exfil_detection_behaviour.2 st0 exfilScen exfilStep [] 2 rfl rfl rfl rfl rfl
    (by decide)
  exact h.2.1 "stopped" rfl

/-- Claim C6: a current step id that does not resolve, and a stochastic
outcome whose selected branch parameter is absent or not a `goto`/`end`
jump pair, each log a diagnostic, break out of the loop without consuming
the remaining budget, and end in the budget-exhausted-shaped record with
result `max_steps` — there is no distinct "step not found" label. -/
theorem interpreter_error_paths :
    (∀ (td : ℚ) (ms : ℕ) (steps : List ScenarioStep) (fuel : ℕ) (cur : String) (s : ArchState),
      stepLookup steps cur = none →
      (runLoop td ms steps (fuel + 1) cur s).1.result = "max_steps" ∧
      (runLoop td ms steps (fuel + 1) cur s).2.tick = s.tick ∧
      mkLine s.tick ("❌ Step not found: " ++ cur) ∈ (runLoop td ms steps (fuel + 1) cur s).1.logs) ∧
    (∀ (td : ℚ) (ms : ℕ) (steps : List ScenarioStep) (fuel : ℕ) (cur : String)
        (s s' : ArchState) (step : ScenarioStep),
      stepLookup steps cur = some step →
      execStep step (preStep td s step) = StepOut.thru s' →
      (runLoop td ms steps (fuel + 1) cur s).1.result = "max_steps" ∧
      (runLoop td ms steps (fuel + 1) cur s).2.tick = s.tick + 1 ∧
      mkLine (s.tick + 1) "❌ No valid transition found, ending scenario"
        ∈ (runLoop td ms steps (fuel + 1) cur s).1.logs) ∧
    (∀ (s : ArchState) (step : ScenarioStep),
      step.action = "exploit" →
      jumpTaken (step.params.lookup
        (if decide (s.rng s.rngIdx < eval_prob s (getStr step.params "type" "generic")
            (some (getStr step.params "target" "unknown")) none
            (getNum step.params "base_success" (1/2)) 1)
          then "on_success" else "on_fail")) = false →
      ∃ s', execStep step s = StepOut.thru s') :=
  ⟨fun td ms steps fuel cur s h => runLoop_step_not_found td ms steps fuel cur s h,
   fun td ms steps fuel cur s s' step h1 h2 =>
     runLoop_no_transition td ms steps fuel cur s s' step h1 h2,
   fun s step hact hsel => execStep_exploit_malformed s step hact hsel⟩

/-- Witness for C6: an unresolvable step id with budget left returns
`max_steps` without ticking and logs the diagnostic. -/
theorem interpreter_error_paths_inst :
    (runLoop 0 4 [] (0 + 1) "x" st0).1.result = "max_steps" ∧
    (runLoop 0 4 [] (0 + 1) "x" st0).2.tick = st0.tick ∧
    mkLine st0.tick ("❌ Step not found: " ++ "x") ∈ (runLoop 0 4 [] (0 + 1) "x" st0).1.logs :=
  interpreter_error_paths.1 0 4 [] 0 "x" st0 rfl

/-- Claim C8: a first step whose action is not `exploit`, `move_lateral` or
`exfiltrate` logs a warning and makes the run return immediately with
result `unknown_action`, having executed exactly that one step. -/
theorem unknown_action_returns :
    ∀ (st : ArchState) (scen : Scenario) (s0 : ScenarioStep) (rest : List ScenarioStep) (m : ℕ),
      scen.steps = s0 :: rest →
      scen.timeline.max_steps.getD 20 = m + 1 →
      stepLookup scen.steps s0.id = some s0 →
      ¬s0.action = "exploit" → ¬s0.action = "move_lateral" → ¬s0.action = "exfiltrate" →
      (run_scenario st scen).1.result = "unknown_action" ∧
      (run_scenario st scen).2.tick = st.tick + 1 ∧
      mkLine (st.tick + 1) ("⚠️  Unknown action: " ++ s0.action)
        ∈ (run_scenario st scen).1.logs := by
  intro st scen s0 rest m hs hms hfind h1 h2 h3
  rw [run_scenario_cons st scen s0 rest hs, hms]
  obtain ⟨hr, ht, hl⟩ := runLoop_unknown_action
    (scen.timeline.tick_delay.getD (1/2)) (m + 1) scen.steps m s0.id
    (((st.log ("🚀 Running scenario: " ++ scen.name)).log
        ("📊 Timeline: max_steps=" ++ toString (m + 1) ++
          ", tick_delay=" ++ toString (scen.timeline.tick_delay.getD (1/2)) ++ "s")).log
      ("🎯 Starting from step: " ++ s0.id)) s0 hfind h1 h2 h3
  refine ⟨hr, ?_, ?_⟩
  · rw [ht]
    simp
  · rw [hl]
    simp

/-- Witness for C8: the concrete `backdoor` scenario returns
`unknown_action`. -/
theorem unknown_action_returns_inst :
    (run_scenario st0 backdoorScen).1.result = "unknown_action" :=
  (unknown_action_returns st0 backdoorScen backdoorStep [] 1 rfl rfl rfl
    (by decide) (by decide) (by decide)).1

end ClaimTheorems

end ArchFinn
